import Mathlib

/-!
Shallow embedding of `vagranttop.py` (a curses `top`-like dashboard for
VirtualBox/Vagrant VMs) and proofs about the claims of its specification.

Modelling conventions:
* Machine/OS side effects are passed explicitly: the pending-input queue is a
  `List (Option Key)` (one element per `getkey` call, `none` meaning the call
  raised `curses.error` because no key was pending), the filesystem read by
  `get_vagrant_machines` is a partial map `String → Option String`
  (`none` = missing file, raising `IOError` in the source), and external
  command invocations are `Except Unit String` values (`.error` = the
  `subprocess.CalledProcessError` raised by `check_output` on non-zero exit).
* Python floats are modelled as `Rat`; no claim depends on float rounding.
* Python `None` is modelled with `Option`; fallible Python code (uncaught
  `KeyError` / `TypeError` / `CalledProcessError`) returns `Except`.
* Python `dict` is modelled as an association list with first-match lookup and
  overwrite-on-insert, mirroring one-key-one-slot dict semantics.
-/

/-! ## Python string primitives

`str.split(sep)`, `str.strip()`, `str.strip(' ')` re-implemented structurally
on `List Char` so that every definition evaluates inside the kernel. -/

/-- Python `s.split(c)` on the character list of `s`: splitting an empty
string yields `[""]`, and separators at the ends yield empty fields. -/
def splitCh (c : Char) : List Char → List (List Char)
  | [] => [[]]
  | a :: as =>
    let r := splitCh c as
    if a = c then [] :: r
    else
      match r with
      | [] => [[a]]
      | h :: t => (a :: h) :: t

/-- Python `s.split(c)` for strings. -/
def pySplit (c : Char) (s : String) : List String :=
  (splitCh c s.data).map (fun l => String.mk l)

/-- Characters removed by Python `str.strip()` with no arguments. -/
def isPySpace (c : Char) : Bool :=
  c = ' ' || c = '\t' || c = '\n' || c = '\r' || c = '\x0b' || c = '\x0c'

/-- Python `s.strip()`: remove leading and trailing whitespace. -/
def pyStrip (s : String) : String :=
  String.mk (((s.data.dropWhile isPySpace).reverse.dropWhile isPySpace).reverse)

/-- Python `s.strip(' ')`: remove leading and trailing space characters only. -/
def stripSpaces (s : String) : String :=
  String.mk (((s.data.dropWhile (· = ' ')).reverse.dropWhile (· = ' ')).reverse)

/-! ## Display state and keyboard handling (`Top.check_input`) -/

/-- The sortable columns of the display, the possible values of
`self.sort_col` in the source. -/
inductive Col
  | cpu_percent
  | memory_percent
  | time_sum
  | pid
  | vm_dir
  | vm_name
  | vm_id
deriving DecidableEq

/-- A key returned by `win.getkey()`: the quit key, the seven sort-column
keys, or any other key (`other`). -/
inductive Key
  | q
  | c
  | m
  | t
  | p
  | d
  | n
  | i
  | other
deriving DecidableEq

/-- The `key_map` dict of `Top.check_input` (source lines 274-282). -/
def key_map : Key → Option Col
  | .c => some .cpu_percent
  | .m => some .memory_percent
  | .t => some .time_sum
  | .p => some .pid
  | .d => some .vm_dir
  | .n => some .vm_name
  | .i => some .vm_id
  | _ => none

/-- The mutable display state of a `Top` instance: `sort_col`,
`sort_reverse` (`true` = descending) and `graceful_exit`.
`__init__` sets `⟨.cpu_percent, true, false⟩`. -/
structure DState where
  sort_col : Col
  sort_reverse : Bool
  graceful_exit : Bool
deriving DecidableEq

/-- `Top.check_input` (source lines 264-290): one `getkey` result comes in as
`Option Key`.  Returns whether input was consumed (the Python return value)
together with the updated state.  `q` sets `graceful_exit`; a sort key either
toggles `sort_reverse` (same column) or switches `sort_col` (different
column); any other read key changes nothing; all read keys return `true`. -/
def check_input : Option Key → DState → Bool × DState
  | none, s => (false, s)
  | some .q, s => (true, { s with graceful_exit := true })
  | some k, s =>
    match key_map k with
    | some col =>
      if s.sort_col = col then (true, { s with sort_reverse := !s.sort_reverse })
      else (true, { s with sort_col := col })
    | none => (true, s)

/-- The interruptible-sleep loop at the top of `Top.poll` (source lines
77-80): up to `n` slices; each slice first checks input and, if a key was
consumed, breaks out; otherwise it sleeps once and continues.  Returns the
state after input handling, the number of `time.sleep` calls performed, and
the unconsumed remainder of the input queue.  The source runs it with
`n = 99` (`for i in range(0, 99)`). -/
def sleep_loop : Nat → DState → List (Option Key) → DState × Nat × List (Option Key)
  | 0, s, ins => (s, 0, ins)
  | n + 1, s, ins =>
    let r := check_input (ins.headD none) s
    if r.1 then (r.2, 0, ins.tail)
    else
      let t := sleep_loop n r.2 ins.tail
      (t.1, t.2.1 + 1, t.2.2)

/-! ## Comment extraction (`Top.get_vagrant_comment`) -/

/-- `Top.get_vagrant_comment` (source lines 304-313): the token immediately
following the first token equal to `--comment`, or `None` when there is no
such pair (also when `--comment` is the last token, or `cmdline` is empty). -/
def get_vagrant_comment : List String → Option String
  | [] => none
  | a :: rest => if a = "--comment" then rest.head? else get_vagrant_comment rest

example : get_vagrant_comment ["VBoxHeadless", "--comment", "x", "y"] = some "x" := by decide
example : get_vagrant_comment ["VBoxHeadless", "--startvm", "x"] = none := by decide
example : get_vagrant_comment ["a", "--comment"] = none := by decide
example : get_vagrant_comment ["--comment", "--comment", "x"] = some "--comment" := by decide

/-! ## Data model of the poll cycle -/

/-- The fields of a `vagrant global-status` record that `Top.poll` reads from
`self.vagrant_machines[...]` (source lines 107-111): the `id` column of the
listing (the vagrant machine id, passed to `vagrant ssh`), the `name` column,
and the derived `dir_name`. -/
structure VMRec where
  id : String
  name : String
  dir_name : String
deriving DecidableEq

/-- One OS process as returned by `psutil.process_iter` with the `as_dict`
fields `Top.poll` requests (source lines 85-89); `cpu_times` and the percent
fields are nullable, floats are modelled as `Rat`. -/
structure RawProc where
  pid : Nat
  name : String
  cmdline : List String
  username : Option String
  status : String
  cpu_percent : Option Rat
  memory_percent : Option Rat
  cpu_times : Option (List Rat)
deriving DecidableEq

/-- The enriched `p.dict` of a retained (`VBoxHeadless`) process after the
correlation step of `Top.poll` (source lines 97-126).  `time_sum = none`
models the `''` assigned when `cpu_times` is `None`; `vm_name` is an
`Option` because the miss branch stores the raw comment, which is `None`
for a command line without `--comment`. -/
structure Entry where
  pid : Nat
  username : Option String
  status : String
  cpu_percent : Option Rat
  memory_percent : Option Rat
  time_sum : Option Rat
  vm_id : String
  vm_dir : String
  vm_name : Option String
  vm_load : String
deriving DecidableEq

/-- The inventory held by a `Top` instance: `self.vagrant_machines` (keyed by
provider instance id) and `self.running_vms` (comment, i.e. VirtualBox VM
name, to provider instance id). -/
structure InvState where
  machines : List (String × VMRec)
  running : List (String × String)
deriving DecidableEq

/-- The external world a poll cycle observes: the process snapshot, the
inventory an inventory refresh would fetch (held fixed during one cycle), and
the outcome of `vagrant ssh <id> -c 'cat /proc/loadavg'` per machine id
(`.error` models `subprocess.check_output` raising `CalledProcessError`). -/
structure World where
  procs : List RawProc
  fresh_machines : List (String × VMRec)
  fresh_running : List (String × String)
  loadResult : String → Except Unit String

/-- Python dict lookup (`d[k]` / `k in d`) on an association list. -/
def dictGet (d : List (String × String)) (k : String) : Option String :=
  match d with
  | [] => none
  | (k', v) :: rest => if k' = k then some v else dictGet rest k

/-- Dict lookup for the machines dict. -/
def dictGetRec (d : List (String × VMRec)) (k : String) : Option VMRec :=
  match d with
  | [] => none
  | (k', v) :: rest => if k' = k then some v else dictGetRec rest k

/-- Python `vagrant_comment in self.running_vms`: `None` is never a key of
the (string-keyed) dict, so a null comment always misses. -/
def commentLookup (c : Option String) (running : List (String × String)) : Option String :=
  match c with
  | none => none
  | some cs => dictGet running cs

/-! ## Load-average fetch (`get_vagrant_load`, `Top._get_vagrant_load`) -/

/-- The scratch-directory state touched by `get_vagrant_load`: whether
`/tmp/vagranttop` exists as a directory and whether
`/tmp/vagranttop/Vagrantfile` exists. -/
structure FsState where
  dirExists : Bool
  fileExists : Bool
deriving DecidableEq

/-- The setup prelude of `get_vagrant_load` (source lines 376-378): when the
directory is missing, create it and create the empty `Vagrantfile` inside it;
the file creation sits inside the `if not os.path.isdir(tmp_dir)` branch, so
nothing happens when the directory already exists. -/
def load_setup : FsState → FsState
  | ⟨false, _⟩ => ⟨true, true⟩
  | ⟨true, f⟩ => ⟨true, f⟩

/-- The remainder of `get_vagrant_load` (source lines 380-385): run the
remote command via `subprocess.check_output`; a raise propagates (there is no
handler), otherwise return `cmd.strip().split(' ')[0]`. -/
def get_vagrant_load_result (cmd : Except Unit String) : Except Unit String :=
  match cmd with
  | .error e => .error e
  | .ok out => .ok (((pySplit ' ' (pyStrip out))).headD "")

/-- `get_vagrant_load` (source lines 374-385) as a whole: the scratch-dir
setup composed with the fetch. -/
def get_vagrant_load (fs : FsState) (cmd : Except Unit String) :
    FsState × Except Unit String :=
  (load_setup fs, get_vagrant_load_result cmd)

/-- `Top._get_vagrant_load` (source lines 323-327): when ssh mode is off the
placeholder `"?"` is returned without running anything; when on, the result
of `get_vagrant_load` (including a propagated raise) comes back.  The
scratch-dir state is orthogonal to the poll-cycle claims and is threaded only
in `get_vagrant_load` above. -/
def ssh_get_vagrant_load (ssh : Bool) (w : World) (vagrant_id : String) :
    Except Unit String :=
  if ssh then get_vagrant_load_result (w.loadResult vagrant_id) else .ok "?"

/-! ## Correlation of one process (`Top.poll`, source lines 97-126) -/

/-- Population of the vm fields of one `VBoxHeadless` process against an
inventory (source lines 106-116 plus the `time_sum` of lines 121-124): on a
hit, index `self.vagrant_machines` (an uncaught `KeyError`, modelled as
`.error`, when the running-vms value is not a machines key) and fetch the
load (whose raise also propagates); on a miss, store the placeholder fields
with `vm_name` holding the raw comment. -/
def enrich (ssh : Bool) (w : World) (inv1 : InvState) (c : Option String)
    (p : RawProc) : Except Unit Entry :=
  match commentLookup c inv1.running with
  | some uuid =>
    match dictGetRec inv1.machines uuid with
    | none => .error ()
    | some rec =>
      match ssh_get_vagrant_load ssh w rec.id with
      | .error e => .error e
      | .ok load =>
        .ok { pid := p.pid, username := p.username, status := p.status,
              cpu_percent := p.cpu_percent, memory_percent := p.memory_percent,
              time_sum := p.cpu_times.map (fun l => l.foldl (· + ·) 0),
              vm_id := rec.id, vm_dir := rec.dir_name,
              vm_name := some rec.name, vm_load := load }
  | none =>
    .ok { pid := p.pid, username := p.username, status := p.status,
          cpu_percent := p.cpu_percent, memory_percent := p.memory_percent,
          time_sum := p.cpu_times.map (fun l => l.foldl (· + ·) 0),
          vm_id := "", vm_dir := "",
          vm_name := c, vm_load := "" }

/-- Splitting off the refresh decision (source lines 101-104): when the
comment misses the current `running_vms` the inventory is refreshed from the
world (counted as 1), and the enrichment then runs against the refreshed
inventory. -/
def processVBox (ssh : Bool) (w : World) (inv : InvState) (p : RawProc) :
    Except Unit Entry × InvState × Nat :=
  let c := get_vagrant_comment p.cmdline
  if (commentLookup c inv.running).isSome then (enrich ssh w inv c p, inv, 0)
  else (enrich ssh w ⟨w.fresh_machines, w.fresh_running⟩ c p,
        ⟨w.fresh_machines, w.fresh_running⟩, 1)

/-- The enumeration loop of `Top.poll` (source lines 81-126) restricted to
its effectful core: walk the snapshot, retain `VBoxHeadless` processes,
correlate each one threading the inventory, and count inventory refreshes.
An uncaught exception from `processVBox` aborts the walk (the Python
exception propagates out of `poll`); the inventory state and refresh count
reached up to that point are still reported. -/
def poll_procs (ssh : Bool) (w : World) :
    List RawProc → InvState → Except Unit (List Entry) × InvState × Nat
  | [], inv => (.ok [], inv, 0)
  | p :: ps, inv =>
    if p.name = "VBoxHeadless" then
      match processVBox ssh w inv p with
      | (.error e, inv', r) => (.error e, inv', r)
      | (.ok entry, inv', r) =>
        match poll_procs ssh w ps inv' with
        | (.ok es, inv'', r') => (.ok (entry :: es), inv'', r + r')
        | (.error e, inv'', r') => (.error e, inv'', r + r')
    else poll_procs ssh w ps inv

/-- The `procs_status` histogram of `Top.poll` (source lines 82-93): count
every snapshot process by status label. -/
def dictIncr (d : List (String × Nat)) (k : String) : List (String × Nat) :=
  if d.any (fun kv => kv.1 = k) then
    d.map (fun kv => if kv.1 = k then (kv.1, kv.2 + 1) else kv)
  else d ++ [(k, 1)]

/-- Status histogram over the whole snapshot. -/
def histogram (ps : List RawProc) : List (String × Nat) :=
  ps.foldl (fun d p => dictIncr d p.status) []

/-! ## Sort engine (`sorted(procs, key=..., reverse=...)`, source lines 128-131)

Python's `sorted` is stable; a stable sort is uniquely determined by the key
order and the input order, so the standard stable insertion sort
(`List.insertionSort`) is extensionally the same function.  `reverse=True`
is Python's stable descending sort: equal-key elements keep their original
relative order (CPython reverses the list before and after an ascending
stable sort), so it is insertion sort under the flipped comparison. -/

/-- Python `sorted(l, key, reverse=rev)` for a boolean key comparison `le`
(`le x y` = "key of `x` compares less-or-equal to key of `y`"). -/
def pysorted (le : α → α → Bool) (rev : Bool) (l : List α) : List α :=
  if rev then List.insertionSort (fun x y => le y x = true) l
  else List.insertionSort (fun x y => le x y = true) l

/-- A dynamically-typed Python value appearing as a sort key
`p.dict[self.sort_col]`: `None`, a number, or a string. -/
inductive PyVal
  | null
  | num (q : Rat)
  | str (s : String)
deriving DecidableEq

/-- Lexicographic less-or-equal on character lists (Python byte-string
comparison). -/
def strLe : List Char → List Char → Bool
  | [], _ => true
  | _ :: _, [] => false
  | x :: xs, y :: ys => if x = y then strLe xs ys else decide (x.toNat < y.toNat)

/-- Python 2 `<=` on the dynamic values that can appear in a sort column:
`None` compares below everything, numbers below strings (CPython 2
cross-type ordering), numbers numerically, strings lexicographically. -/
def pyLe : PyVal → PyVal → Bool
  | .null, _ => true
  | _, .null => false
  | .num a, .num b => decide (a ≤ b)
  | .num _, .str _ => true
  | .str _, .num _ => false
  | .str a, .str b => strLe a.data b.data

/-- The dynamic value `p.dict[col]` used as the sort key: `cpu_percent` and
`memory_percent` are floats or `None`; `time_sum` is a float or the string
`''`; `pid` is an int; the vm columns are strings, except that `vm_name` can
be `None`. -/
def colVal : Col → Entry → PyVal
  | .cpu_percent, e => (e.cpu_percent.map PyVal.num).getD .null
  | .memory_percent, e => (e.memory_percent.map PyVal.num).getD .null
  | .time_sum, e => (e.time_sum.map PyVal.num).getD (.str "")
  | .pid, e => .num e.pid
  | .vm_dir, e => .str e.vm_dir
  | .vm_name, e => (e.vm_name.map PyVal.str).getD .null
  | .vm_id, e => .str e.vm_id

/-! ## The poll cycle and the interactive loop -/

/-- The rendered output handed to `Top.refresh_window`: the sorted retained
processes and the status histogram. -/
structure CycleOut where
  procs : List Entry
  procs_status : List (String × Nat)
deriving DecidableEq

/-- `Top.poll` (source lines 75-131): the interruptible sleep over the input
queue, then the snapshot walk with correlation, then the sort by the current
sort state (which input handling may just have updated).  Returns the updated
display state, the unconsumed input queue, the inventory after the cycle, the
number of inventory refreshes performed, and the cycle output (or the
propagated exception). -/
def poll (ssh : Bool) (w : World) (ins : List (Option Key)) (s : DState)
    (inv : InvState) :
    DState × List (Option Key) × InvState × Nat × Except Unit CycleOut :=
  let t := sleep_loop 99 s ins
  let pr := poll_procs ssh w w.procs inv
  (t.1, t.2.2, pr.2.1, pr.2.2,
   pr.1.map (fun es =>
     ⟨pysorted (fun x y => pyLe (colVal t.1.sort_col x) (colVal t.1.sort_col y))
        t.1.sort_reverse es,
      histogram w.procs⟩))

/-- `Top.loop` (source lines 293-301), with explicit fuel bounding the number
of cycles (the modelling artifact for the unbounded `while`; fuel exhaustion
returns what was rendered so far).  Each iteration checks `graceful_exit`,
then runs a full poll and render; a propagated exception ends the run with
`.error` and nothing further is rendered. -/
def loop (ssh : Bool) (w : World) :
    Nat → List (Option Key) → DState → InvState → List CycleOut × Except Unit Unit
  | 0, _, _, _ => ([], .ok ())
  | fuel + 1, ins, s, inv =>
    if s.graceful_exit then ([], .ok ())
    else
      let t := poll ssh w ins s inv
      match t.2.2.2.2 with
      | .error e => ([], .error e)
      | .ok out =>
        let rest := loop ssh w fuel t.2.1 t.1 t.2.2.1
        (out :: rest.1, rest.2)

/-! ## Row rendering (`Top.refresh_window`, source lines 215-246)

Only the value-level computation per row is modelled; the curses padding and
string formatting are rendering concerns outside the specified core.  The one
fallible step in the core's value path is `" " + p.dict['vm_name']`, which
raises `TypeError` when `vm_name` is `None`; `vm_id` is wrapped in a
`try/except TypeError` in the source (and is in fact always a string here),
and `int('')` from an empty `time_sum` is caught and replaced by `0`. -/

/-- The per-row field values computed by `refresh_window`. -/
structure Row where
  pid : Nat
  cpu_percent : Option Rat
  memory_percent : Option Rat
  time_sum : Int
  vm_id : String
  vm_load : String
  vm_dir : String
  vm_name : String
deriving DecidableEq

/-- One row of `refresh_window`'s process table, `.error` modelling an
uncaught `TypeError`.  `memory_percent` is rounded to one decimal
(`round(x, 1)`), `time_sum` is truncated to an integer with `''` caught to
`0`, `vm_id` falls back to `" (none)"` on `TypeError` (dead here since
`vm_id` is always a string), and `" " + vm_name` raises when `vm_name` is
`None`. -/
def render_row (e : Entry) : Except String Row :=
  match e.vm_name with
  | none => .error "TypeError"
  | some nm =>
    .ok { pid := e.pid,
          cpu_percent := e.cpu_percent,
          memory_percent := e.memory_percent.map (fun q => (round (10 * q) : Rat) / 10),
          time_sum := (e.time_sum.map Rat.floor).getD 0,
          vm_id := " " ++ e.vm_id,
          vm_load := e.vm_load,
          vm_dir := " " ++ e.vm_dir,
          vm_name := " " ++ nm }

/-! ## Orchestrator listing parser (`get_vagrant_machines`, source lines 341-371) -/

/-- Python `os.path.join(a, b)` for one step: an absolute `b` resets the
path; otherwise the parts are glued with exactly one `/`. -/
def pjoin (a b : String) : String :=
  if b.data.head? = some '/' then b
  else if a = "" then b
  else if a.data.getLast? = some '/' then a ++ b
  else a ++ "/" ++ b

/-- The last path segment, `os.path.split(p)[-1]`: everything after the last
`/` (empty when the path ends in `/`). -/
def lastSeg (s : String) : String :=
  ((splitCh '/' s.data).getLastD []).asString

/-- Python `f.read(1000)`: at most the first 1000 characters. -/
def read1000 (s : String) : String :=
  String.mk (s.data.take 1000)

/-- The header tokenisation (source line 349):
`[s.strip() for s in header_line.split(' ') if s.strip()]`. -/
def parse_header (out : String) : List String :=
  (((pySplit ' ' ((pySplit '\n' out).headD ""))).map pyStrip).filter (· ≠ "")

/-- The data rows (source line 350-352): strip every line, skip the first
two, stop at the first blank line. -/
def data_rows (out : String) : List String :=
  ((((pySplit '\n' out)).map pyStrip).drop 2).takeWhile (· ≠ "")

/-- The row tokenisation (source line 353):
`[s.strip() for s in line.split(' ') if s.strip(' ')]` — note the filter
strips spaces only while the kept token is fully stripped. -/
def parse_parts (line : String) : List String :=
  (((pySplit ' ' line)).filter (fun s => stripSpaces s ≠ "")).map pyStrip

/-- The per-row dict of one listing record: the header-name-to-token dict
plus the derived `dir_name` and the verbatim `index_uuid` sentinel file. -/
structure LineDict where
  fields : List (String × String)
  dir_name : String
  index_uuid : String
deriving DecidableEq

/-- Python dict lookup where sequential assignment lets the later duplicate
key win: search the association list from the back. -/
def pyDictGet (d : List (String × String)) (k : String) : Option String :=
  dictGet d.reverse k

/-- Parse one data row of the listing (source lines 353-370): build
`line_dict` by header index (an out-of-range index is an uncaught
`IndexError`), look up `directory`, `name` and `provider` (`KeyError` when
the header lacks them), derive `dir_name` and the sentinel path, and read the
two sentinel files (`IOError` when missing).  Returns the machines-dict key
(the `id` sentinel content) with the record, or `none` for any raise. -/
def parse_row (header : List String) (fs : String → Option String) (line : String) :
    Option (String × LineDict) := do
  let parts := parse_parts line
  let fields ← (List.range header.length).mapM
    (fun i => do
      let h ← header.get? i
      let p ← parts.get? i
      pure (h, p))
  let directory ← pyDictGet fields "directory"
  let name ← pyDictGet fields "name"
  let provider ← pyDictGet fields "provider"
  let vagrantPath := pjoin (pjoin (pjoin directory ".vagrant/machines") name) provider
  let indexUuid ← fs (pjoin vagrantPath "index_uuid")
  let providerId ← fs (pjoin vagrantPath "id")
  pure (read1000 providerId,
        { fields := fields, dir_name := lastSeg directory,
          index_uuid := read1000 indexUuid })

/-- Python `machines[provider_id] = line_dict`: overwrite in place when the
key exists, append otherwise. -/
def dictInsert (d : List (String × LineDict)) (k : String) (v : LineDict) :
    List (String × LineDict) :=
  if d.any (fun kv => kv.1 = k) then
    d.map (fun kv => if kv.1 = k then (k, v) else kv)
  else d ++ [(k, v)]

/-- The row loop of `get_vagrant_machines`: parse each row in order into the
machines dict; a raise from any row aborts the whole call. -/
def parse_rows (header : List String) (fs : String → Option String) :
    List String → List (String × LineDict) → Option (List (String × LineDict))
  | [], acc => some acc
  | r :: rs, acc =>
    match parse_row header fs r with
    | none => none
    | some (k, v) => parse_rows header fs rs (dictInsert acc k v)

/-- `get_vagrant_machines` (source lines 341-371) on the captured stdout of
`vagrant global-status` and the sentinel-file filesystem: header from line
one, rows from line three until the first blank, one machines-dict entry per
row keyed by the `id` sentinel file content. -/
def get_vagrant_machines (out : String) (fs : String → Option String) :
    Option (List (String × LineDict)) :=
  parse_rows (parse_header out) fs (data_rows out) []

/-! ## Helper lemmas -/

/-- Any read key makes `check_input` report input consumed. -/
lemma check_input_some_fst (k : Key) (s : DState) : (check_input (some k) s).1 = true := by
  cases k <;> simp [check_input, key_map] <;> split <;> rfl

/-- A pending key at the head of the queue stops the sleep loop at once. -/
lemma sleep_loop_consume (n : Nat) (s : DState) (k : Key) (rest : List (Option Key)) :
    sleep_loop (n + 1) s (some k :: rest) = ((check_input (some k) s).2, 0, rest) := by
  simp [sleep_loop, check_input_some_fst]

/-- With no pending input the sleep loop sleeps through all its slices. -/
lemma sleep_loop_nil (n : Nat) (s : DState) : sleep_loop n s [] = (s, n, []) := by
  induction n with
  | zero => rfl
  | succ n ih => simp [sleep_loop, check_input, ih]

/-- Once `graceful_exit` is set the loop renders nothing further. -/
lemma loop_exit (ssh : Bool) (w : World) (f : Nat) (ins : List (Option Key))
    (s : DState) (inv : InvState) (h : s.graceful_exit = true) :
    loop ssh w f ins s inv = ([], .ok ()) := by
  cases f with
  | zero => rfl
  | succ f => simp [loop, h]

/-! ## C9: scratch-directory setup -/

/-- C9, code_bug: the claim says the load-fetch setup creates the
`Vagrantfile` whenever it is absent — in particular when the directory
already exists without it — so that after one invocation both exist.  The
code nests the file creation inside the missing-directory branch: starting
from (directory exists, file absent) the setup is the identity and the file
is still absent afterwards; only the missing-directory start creates both. -/
theorem C9_setup_skips_file :
    load_setup ⟨true, false⟩ = ⟨true, false⟩ ∧
    (load_setup ⟨true, false⟩).fileExists = false ∧
    load_setup ⟨false, false⟩ = ⟨true, true⟩ :=
  ⟨rfl, rfl, rfl⟩

/-! ## C4: process without a `--comment` token -/

/-- A `VBoxHeadless` process whose command line has no `--comment` token. -/
def p4 : RawProc :=
  { pid := 7, name := "VBoxHeadless", cmdline := ["VBoxHeadless", "--startvm", "foo"],
    username := none, status := "running", cpu_percent := some 0,
    memory_percent := some 0, cpu_times := none }

/-- A world with an empty inventory. -/
def w4 : World := ⟨[p4], [], [], fun _ => .error ()⟩

/-- The entry the code produces for `p4`. -/
def e4 : Entry :=
  { pid := 7, username := none, status := "running", cpu_percent := some 0,
    memory_percent := some 0, time_sum := none, vm_id := "", vm_dir := "",
    vm_name := none, vm_load := "" }

/-- C4, code_bug: for a retained process without a `--comment` token the
claim (and the spec's failure contract) says `vmId = ""` and `vmName = ""`
with no error anywhere in the correlate-and-render path.  The code indeed
yields `vm_id = ""`, but stores the null comment itself in `vm_name`
(`p.dict['vm_name'] = vagrant_comment`, line 115), and rendering then
evaluates `" " + None` (line 243), an uncaught `TypeError` — the
`try/except TypeError` guard exists only for `vm_id` (lines 232-235). -/
theorem C4_null_comment_breaks_render :
    get_vagrant_comment p4.cmdline = none ∧
    processVBox false w4 ⟨[], []⟩ p4 = (.ok e4, ⟨[], []⟩, 1) ∧
    e4.vm_id = "" ∧ e4.vm_name = none ∧
    render_row e4 = .error "TypeError" :=
  ⟨rfl, rfl, rfl, rfl, rfl⟩

/-! ## C5: load-fetch failure -/

/-- A machine record for the correlated-process worlds. -/
def recA : VMRec := ⟨"vid", "vm1", "dirA"⟩

/-- A `VBoxHeadless` process carrying comment `X`. -/
def pX : RawProc :=
  { pid := 1, name := "VBoxHeadless", cmdline := ["VBoxHeadless", "--comment", "X"],
    username := none, status := "running", cpu_percent := some 1,
    memory_percent := some 1, cpu_times := none }

/-- A world whose remote load command always exits non-zero. -/
def w5 : World := ⟨[pX], [("u", recA)], [("X", "u")], fun _ => .error ()⟩

/-- The inventory in which `X` resolves to `recA`. -/
def inv5 : InvState := ⟨[("u", recA)], [("X", "u")]⟩

/-- C5, corrected, counterexample: the claim says a non-zero exit of the
remote load command makes the fetch return `"?"` and the poll cycle
continue.  The code calls `subprocess.check_output` with no handler: the
`CalledProcessError` propagates out of `get_vagrant_load` (the fetch does
not return `"?"`) and aborts the whole enumeration of the poll cycle. -/
theorem C5_load_failure_aborts_poll :
    get_vagrant_load ⟨true, true⟩ (.error ()) = (⟨true, true⟩, .error ()) ∧
    get_vagrant_load_result (.error ()) ≠ .ok "?" ∧
    (poll_procs true w5 w5.procs inv5).1 = .error () :=
  ⟨rfl, by intro h; exact Except.noConfusion h, rfl⟩

/-- C5, amended: the placeholder `"?"` appears only when ssh mode is
disabled, in which case the fetch never runs and never fails; when ssh mode
is enabled, a failing remote command propagates its raise unchanged out of
`get_vagrant_load`. -/
theorem C5_amended_failure_propagates :
    (∀ e : Unit, get_vagrant_load_result (.error e) = .error e) ∧
    (∀ (fs : FsState) (e : Unit), (get_vagrant_load fs (.error e)).2 = .error e) ∧
    (∀ (w : World) (vid : String), ssh_get_vagrant_load false w vid = .ok "?") :=
  ⟨fun _ => rfl, fun _ _ => rfl, fun _ _ => rfl⟩

/-! ## C3: sort-key presses -/

/-- C3, corrected, counterexample: starting from the default state
(cpu column, descending), pressing `c` toggles to ascending; then pressing
`m` — a different column — switches the column but leaves the direction
ascending.  The claim says selecting a different column resets the direction
to descending (`sort_reverse = true`); the code's else branch (line 288)
assigns only `sort_col`. -/
theorem C3_switch_keeps_direction :
    ((check_input (some Key.m)
        ((check_input (some Key.c) ⟨Col.cpu_percent, true, false⟩).2)).2.sort_col
      = Col.memory_percent) ∧
    ((check_input (some Key.m)
        ((check_input (some Key.c) ⟨Col.cpu_percent, true, false⟩).2)).2.sort_reverse
      ≠ true) := by
  decide

/-- C3, amended: pressing the key of the currently selected column toggles
the direction (and pressing it twice restores the original direction);
pressing the key of a different column selects that column and leaves the
direction unchanged (it does not reset it to descending). -/
theorem C3_toggle_and_switch (s : DState) (k : Key) (col : Col)
    (hk : key_map k = some col) :
    (s.sort_col = col →
      (check_input (some k) s).2 = { s with sort_reverse := !s.sort_reverse } ∧
      (check_input (some k) ((check_input (some k) s).2)).2.sort_reverse
        = s.sort_reverse) ∧
    (s.sort_col ≠ col →
      (check_input (some k) s).2 = { s with sort_col := col } ∧
      (check_input (some k) s).2.sort_reverse = s.sort_reverse) := by
  cases k <;> simp_all [check_input, key_map]

/-- Witness for C3: at the default state, pressing `c` (the selected cpu
column) toggles the direction, and a second press restores it. -/
theorem C3_toggle_and_switch_witness :
    (check_input (some Key.c) ⟨Col.cpu_percent, true, false⟩).2
      = ⟨Col.cpu_percent, false, false⟩ ∧
    (check_input (some Key.c)
        ((check_input (some Key.c) ⟨Col.cpu_percent, true, false⟩).2)).2.sort_reverse
      = true := by
  have h := (C3_toggle_and_switch ⟨Col.cpu_percent, true, false⟩ Key.c
    Col.cpu_percent (by decide)).1 rfl
  exact ⟨h.1, h.2⟩

/-! ## C10: any key interrupts the sleep -/

/-- C10, confirmed: `check_input` reports input consumed for every read key
(quit, sort keys, and unbound keys alike) and only for a read key; a pending
key therefore stops the sleep loop with zero further sleeps and the
unconsumed queue returned, while an empty `getkey` lets it sleep on; and the
poll that follows an interrupted sleep is the same full poll that follows an
uninterrupted one (the enumeration is unconditional after the sleep). -/
theorem C10_any_key_interrupts :
    (∀ (k : Key) (s : DState), (check_input (some k) s).1 = true) ∧
    (∀ s : DState, check_input none s = (false, s)) ∧
    (∀ (n : Nat) (s : DState) (k : Key) (rest : List (Option Key)),
      sleep_loop (n + 1) s (some k :: rest) = ((check_input (some k) s).2, 0, rest)) ∧
    (∀ (n : Nat) (s : DState) (rest : List (Option Key)),
      sleep_loop (n + 1) s (none :: rest)
        = ((sleep_loop n s rest).1, (sleep_loop n s rest).2.1 + 1,
           (sleep_loop n s rest).2.2)) ∧
    (∀ (ssh : Bool) (w : World) (k : Key) (rest : List (Option Key)) (s : DState)
        (inv : InvState),
      (poll ssh w (some k :: rest) s inv).2.2.2.2
        = (poll ssh w [] ((check_input (some k) s).2) inv).2.2.2.2) := by
  refine ⟨check_input_some_fst, fun _ => rfl, sleep_loop_consume, ?_, ?_⟩
  · intro n s rest
    simp [sleep_loop, check_input]
  · intro ssh w k rest s inv
    have h1 : sleep_loop 99 s (some k :: rest) = ((check_input (some k) s).2, 0, rest) :=
      sleep_loop_consume 98 s k rest
    have h2 : sleep_loop 99 ((check_input (some k) s).2) []
        = ((check_input (some k) s).2, 99, []) :=
      sleep_loop_nil 99 ((check_input (some k) s).2)
    simp [poll, h1, h2]

/-! ## C2: quit key during a sleep slice -/

/-- A world with one retained process and an empty (never-resolving)
inventory. -/
def w2 : World := ⟨[pX], [], [], fun _ => .error ()⟩

/-- C2, corrected, counterexample: the quit key is the only pending input,
consumed during the first sleep slice of the first cycle.  The claim says no
further process enumeration, sort, or render occurs after the quit key is
consumed — yet the run still renders exactly one cycle, and that rendered
cycle contains an enumerated (and sorted) process: `Top.poll` runs its
enumeration unconditionally after the interrupted sleep, and `Top.loop`
re-checks `graceful_exit` only before the next cycle. -/
theorem C2_quit_cycle_still_renders :
    (loop false w2 3 [some Key.q] ⟨Col.cpu_percent, true, false⟩ ⟨[], []⟩).1.length
      = 1 ∧
    (loop false w2 3 [some Key.q] ⟨Col.cpu_percent, true, false⟩ ⟨[], []⟩).1.all
      (fun c => c.procs.length = 1) = true := by
  decide

/-- C2, amended: a quit key read during a sleep slice lets the cycle that
consumed it complete (its enumeration succeeding) and render once, after
which the loop halts: the run's output is exactly one cycle, whatever fuel
remains. -/
theorem C2_quit_halts_after_current_cycle (w : World) (fuel : Nat)
    (rest : List (Option Key)) (s : DState) (inv : InvState) (es : List Entry)
    (inv' : InvState) (n : Nat) (hexit : s.graceful_exit = false)
    (hok : poll_procs false w w.procs inv = (.ok es, inv', n)) :
    (loop false w (fuel + 1) (some Key.q :: rest) s inv).1.length = 1 := by
  have hq : (check_input (some Key.q) s).2.graceful_exit = true := rfl
  have h1 : sleep_loop 99 s (some Key.q :: rest)
      = ((check_input (some Key.q) s).2, 0, rest) :=
    sleep_loop_consume 98 s Key.q rest
  simp [loop, hexit, poll, h1, hok, Except.map,
    loop_exit false w fuel rest ((check_input (some Key.q) s).2) inv' hq]

/-- Witness for C2: the concrete single-process world, quit pending, fuel 3:
exactly one cycle is rendered. -/
theorem C2_quit_halts_witness :
    (loop false w2 3 [some Key.q] ⟨Col.cpu_percent, true, false⟩ ⟨[], []⟩).1.length
      = 1 := by
  exact C2_quit_halts_after_current_cycle w2 2 [] ⟨Col.cpu_percent, true, false⟩
    ⟨[], []⟩
    [{ pid := 1, username := none, status := "running", cpu_percent := some 1,
       memory_percent := some 1, time_sum := none, vm_id := "", vm_dir := "",
       vm_name := some "X", vm_load := "" }]
    ⟨[], []⟩ 1 rfl rfl

/-! ## C1: inventory refreshes per cycle -/

/-- A second process carrying the same comment `X`. -/
def pX2 : RawProc := { pX with pid := 2 }

/-- A world where comment `X` never resolves, even after a refresh. -/
def w1 : World := ⟨[pX, pX2], [], [], fun _ => .error ()⟩

/-- C1, corrected, counterexample: two retained processes carry the same
comment `X`, which is absent from the inventory even after a refresh.  The
claim says repeated misses of one unresolved comment trigger only one
refresh per cycle; the code refreshes at every miss (lines 101-104), so this
cycle performs two refreshes. -/
theorem C1_same_comment_two_refreshes :
    get_vagrant_comment pX.cmdline = get_vagrant_comment pX2.cmdline ∧
    (poll_procs false w1 w1.procs ⟨[], []⟩).2.2 = 2 := by
  decide

/-- When the held running-vms map already equals the refreshed one and every
retained process's comment resolves in it, the enumeration performs no
refresh at all. -/
lemma poll_procs_fresh (ssh : Bool) (w : World) :
    ∀ (ps : List RawProc) (inv : InvState), inv.running = w.fresh_running →
    (∀ p ∈ ps, p.name = "VBoxHeadless" →
      ∃ cs, get_vagrant_comment p.cmdline = some cs ∧
        (dictGet w.fresh_running cs).isSome = true) →
    (poll_procs ssh w ps inv).2.2 = 0 := by
  intro ps
  induction ps with
  | nil => intro inv _ _; rfl
  | cons p ps ih =>
    intro inv hrun h
    by_cases hn : p.name = "VBoxHeadless"
    · obtain ⟨cs, hcs, hsome⟩ := h p (List.mem_cons_self p ps) hn
      have hhit : (commentLookup (get_vagrant_comment p.cmdline) inv.running).isSome
          = true := by
        rw [hcs]; simpa [commentLookup, hrun] using hsome
      cases he : enrich ssh w inv (get_vagrant_comment p.cmdline) p with
      | error e => simp [poll_procs, hn, processVBox, hhit, he]
      | ok entry =>
        rcases hr : poll_procs ssh w ps inv with ⟨res2, inv2, r2⟩
        have h0 := ih inv hrun (fun q hq => h q (List.mem_cons_of_mem p hq))
        rw [hr] at h0
        cases res2 <;> simp [poll_procs, hn, processVBox, hhit, he, hr] <;>
          simpa using h0
    · simp only [poll_procs, hn, if_neg, ite_false]
      exact ih inv hrun (fun q hq => h q (List.mem_cons_of_mem p hq))

/-- C1, amended: when every retained process's comment is present in the
refreshed inventory, at most one refresh happens per cycle — the first miss
refreshes, the refreshed map then resolves every later lookup.  (The
counterexample shows the bound fails for comments the refresh itself cannot
resolve: those refresh once per carrying process.) -/
theorem C1_at_most_one_refresh (ssh : Bool) (w : World) :
    ∀ (ps : List RawProc) (inv : InvState),
    (∀ p ∈ ps, p.name = "VBoxHeadless" →
      ∃ cs, get_vagrant_comment p.cmdline = some cs ∧
        (dictGet w.fresh_running cs).isSome = true) →
    (poll_procs ssh w ps inv).2.2 ≤ 1 := by
  intro ps
  induction ps with
  | nil => intro inv _; simp [poll_procs]
  | cons p ps ih =>
    intro inv h
    by_cases hn : p.name = "VBoxHeadless"
    · obtain ⟨cs, hcs, hsome⟩ := h p (List.mem_cons_self p ps) hn
      by_cases hhit :
          (commentLookup (get_vagrant_comment p.cmdline) inv.running).isSome = true
      · cases he : enrich ssh w inv (get_vagrant_comment p.cmdline) p with
        | error e => simp [poll_procs, hn, processVBox, hhit, he]
        | ok entry =>
          rcases hr : poll_procs ssh w ps inv with ⟨res2, inv2, r2⟩
          have h1 := ih inv (fun q hq => h q (List.mem_cons_of_mem p hq))
          rw [hr] at h1
          cases res2 <;> simp [poll_procs, hn, processVBox, hhit, he, hr] <;>
            simpa using h1
      · have hmiss :
            (commentLookup (get_vagrant_comment p.cmdline) inv.running).isSome
              = false := by
          simpa using hhit
        cases he : enrich ssh w ⟨w.fresh_machines, w.fresh_running⟩
            (get_vagrant_comment p.cmdline) p with
        | error e => simp [poll_procs, hn, processVBox, hmiss, he]
        | ok entry =>
          rcases hr : poll_procs ssh w ps ⟨w.fresh_machines, w.fresh_running⟩
            with ⟨res2, inv2, r2⟩
          have h0 : (poll_procs ssh w ps ⟨w.fresh_machines, w.fresh_running⟩).2.2
              = 0 :=
            poll_procs_fresh ssh w ps ⟨w.fresh_machines, w.fresh_running⟩ rfl
              (fun q hq => h q (List.mem_cons_of_mem p hq))
          rw [hr] at h0
          cases res2 <;> simp [poll_procs, hn, processVBox, hmiss, he, hr] <;>
            simpa using h0
    · simp only [poll_procs, hn, if_neg, ite_false]
      exact ih inv (fun q hq => h q (List.mem_cons_of_mem p hq))

/-- A world where the refresh resolves comment `X`. -/
def wC1 : World := ⟨[pX], [("u", recA)], [("X", "u")], fun _ => .error ()⟩

/-- Witness for C1's amended bound: one process whose comment the refreshed
inventory resolves; the cycle performs at most one refresh. -/
theorem C1_at_most_one_refresh_witness :
    (poll_procs false wC1 wC1.procs ⟨[], []⟩).2.2 ≤ 1 := by
  apply C1_at_most_one_refresh
  intro p hp _
  have hpx : p = pX := by simpa [wC1] using hp
  subst hpx
  exact ⟨"X", rfl, rfl⟩

/-! ## C6: displayed load when ssh mode is off -/

/-- With ssh mode off, a successfully enriched entry carries `"?"` when it
correlated and the empty string (with empty `vm_id`/`vm_dir`) when it did
not. -/
lemma enrich_false_vm_load (w : World) (inv1 : InvState) (c : Option String)
    (p : RawProc) (entry : Entry)
    (h : enrich false w inv1 c p = .ok entry) :
    entry.vm_load = "?" ∨ (entry.vm_load = "" ∧ entry.vm_id = "" ∧ entry.vm_dir = "") := by
  unfold enrich at h
  split at h
  · split at h
    · exact absurd h (by simp)
    · split at h
      · exact absurd h (by simp)
      · rename_i load heq
        cases h
        have hload : load = "?" := by
          simp [ssh_get_vagrant_load] at heq
          exact heq.symm
        subst hload
        exact Or.inl rfl
  · cases h
    exact Or.inr ⟨rfl, rfl, rfl⟩

/-- Extracting the enrichment equation from a successful `processVBox`. -/
lemma processVBox_ok_enrich (ssh : Bool) (w : World) (inv : InvState) (p : RawProc)
    (entry : Entry) (inv1 : InvState) (r : Nat)
    (h : processVBox ssh w inv p = (.ok entry, inv1, r)) :
    enrich ssh w inv1 (get_vagrant_comment p.cmdline) p = .ok entry := by
  unfold processVBox at h
  dsimp only at h
  split at h
  · obtain ⟨h1, h2, _⟩ := Prod.mk.injEq .. ▸ h
    exact h1
  · obtain ⟨h1, h2, _⟩ := Prod.mk.injEq .. ▸ h
    exact h1

/-- C6, amended: with ssh mode disabled, every entry of a completed
enumeration displays `vm_load = "?"` if it correlated to a VM record and
`vm_load = ""` (alongside empty `vm_id` and `vm_dir`) if it did not. -/
theorem C6_load_placeholder_split (w : World) :
    ∀ (ps : List RawProc) (inv : InvState) (es : List Entry) (inv' : InvState)
      (n : Nat),
    poll_procs false w ps inv = (.ok es, inv', n) →
    ∀ e ∈ es,
      e.vm_load = "?" ∨ (e.vm_load = "" ∧ e.vm_id = "" ∧ e.vm_dir = "") := by
  intro ps
  induction ps with
  | nil =>
    intro inv es inv' n hok e he
    simp only [poll_procs, Prod.mk.injEq, Except.ok.injEq] at hok
    rw [← hok.1] at he
    cases he
  | cons p ps ih =>
    intro inv es inv' n hok e he
    by_cases hn : p.name = "VBoxHeadless"
    · rcases hpv : processVBox false w inv p with ⟨res, inv1, r⟩
      cases res with
      | error err =>
        simp [poll_procs, hn, hpv] at hok
      | ok entry =>
        rcases hr : poll_procs false w ps inv1 with ⟨res2, inv2, r2⟩
        cases res2 with
        | error err =>
          simp [poll_procs, hn, hpv, hr] at hok
        | ok es2 =>
          simp only [poll_procs, hn, ite_true, hpv, hr, Prod.mk.injEq,
            Except.ok.injEq] at hok
          rw [← hok.1] at he
          rcases List.mem_cons.mp he with he | he
          · rw [he]
            exact enrich_false_vm_load w inv1 (get_vagrant_comment p.cmdline) p entry
              (processVBox_ok_enrich false w inv p entry inv1 r hpv)
          · exact ih inv1 es2 inv2 r2 hr e he
    · simp only [poll_procs, hn, ite_false] at hok
      exact ih inv es inv' n hok e he

/-- The entry the code produces for `pX` against the never-resolving world. -/
def eX : Entry :=
  { pid := 1, username := none, status := "running", cpu_percent := some 1,
    memory_percent := some 1, time_sum := none, vm_id := "", vm_dir := "",
    vm_name := some "X", vm_load := "" }

/-- C6, corrected, counterexample: ssh mode is disabled, yet the retained
process that fails to correlate (comment `X` resolves nowhere) displays
`vm_load = ""`, not `"?"` — line 116 assigns the empty string in the miss
branch, while `"?"` only ever comes from `_get_vagrant_load` on the hit
branch. -/
theorem C6_uncorrelated_load_is_empty :
    (poll_procs false w2 w2.procs ⟨[], []⟩).1 = .ok [eX] ∧
    (render_row eX).map Row.vm_load = .ok "" ∧
    ("" : String) ≠ "?" :=
  ⟨rfl, rfl, by decide⟩

/-- Witness for C6's amended split at the concrete uncorrelated entry. -/
theorem C6_load_placeholder_split_witness :
    eX.vm_load = "?" ∨ (eX.vm_load = "" ∧ eX.vm_id = "" ∧ eX.vm_dir = "") :=
  C6_load_placeholder_split w2 w2.procs ⟨[], []⟩ [eX] ⟨[], []⟩ 1 rfl eX
    (by simp)

/-! ## C8: ascending-then-reverse versus descending -/

/-- `pysorted` with `rev = false` is the stable ascending insertion sort. -/
lemma pysorted_false {α : Type} (le : α → α → Bool) (l : List α) :
    pysorted le false l = List.insertionSort (fun x y => le x y = true) l := rfl

/-- `pysorted` with `rev = true` is the stable descending insertion sort. -/
lemma pysorted_true {α : Type} (le : α → α → Bool) (l : List α) :
    pysorted le true l = List.insertionSort (fun x y => le y x = true) l := rfl

/-- Descending insertion of an element below everything appends it. -/
lemma orderedInsert_of_forall_gt {α κ : Type} [LinearOrder κ] (key : α → κ) (a : α) :
    ∀ t : List α, (∀ z ∈ t, ¬ key z ≤ key a) →
    List.orderedInsert (fun x y => decide (key y ≤ key x) = true) a t = t ++ [a] := by
  intro t
  induction t with
  | nil => intro _; rfl
  | cons z t ih =>
    intro h
    have hz : ¬ key z ≤ key a := h z (List.mem_cons_self z t)
    simp only [List.orderedInsert]
    rw [if_neg (by simpa using hz), ih (fun u hu => h u (List.mem_cons_of_mem z hu))]
    simp

/-- Descending insertion passes over a trailing element it dominates. -/
lemma orderedInsert_desc_snoc {α κ : Type} [LinearOrder κ] (key : α → κ) (a y : α)
    (hy : key y ≤ key a) :
    ∀ t : List α,
    List.orderedInsert (fun x u => decide (key u ≤ key x) = true) a (t ++ [y])
      = List.orderedInsert (fun x u => decide (key u ≤ key x) = true) a t ++ [y] := by
  intro t
  induction t with
  | nil => simp [List.orderedInsert, hy]
  | cons z t ih =>
    by_cases hz : key z ≤ key a
    · simp [List.orderedInsert, hz]
    · simp only [List.cons_append, List.orderedInsert]
      rw [if_neg (by simpa using hz), if_neg (by simpa using hz)]
      simp only [List.append_eq]
      rw [ih]
      simp

/-- Reversing an ascending insertion into an ascending-sorted,
key-distinct list is the descending insertion into the reverse. -/
lemma reverse_orderedInsert {α κ : Type} [LinearOrder κ] (key : α → κ) (a : α) :
    ∀ s : List α, s.Pairwise (fun x y => key x ≤ key y) →
    (∀ z ∈ s, key z ≠ key a) →
    (List.orderedInsert (fun x y => decide (key x ≤ key y) = true) a s).reverse
      = List.orderedInsert (fun x u => decide (key u ≤ key x) = true) a s.reverse := by
  intro s
  induction s with
  | nil => intro _ _; rfl
  | cons y ys ih =>
    intro hp hne
    obtain ⟨h1, h2⟩ := List.pairwise_cons.mp hp
    by_cases hc : key a ≤ key y
    · have hlt : key a < key y :=
        lt_of_le_of_ne hc (Ne.symm (hne y (List.mem_cons_self y ys)))
      rw [List.orderedInsert, if_pos (by simpa using hc)]
      rw [orderedInsert_of_forall_gt key a (y :: ys).reverse ?hall]
      · simp
      case hall =>
        intro z hz
        rw [List.mem_reverse] at hz
        rcases List.mem_cons.mp hz with rfl | hz
        · exact not_le_of_lt hlt
        · exact not_le_of_lt (lt_of_lt_of_le hlt (h1 z hz))
    · have hyc : key y ≤ key a := le_of_not_le hc
      rw [List.orderedInsert, if_neg (by simpa using hc)]
      rw [List.reverse_cons, List.reverse_cons,
        orderedInsert_desc_snoc key a y hyc ys.reverse,
        ih h2 (fun z hz => hne z (List.mem_cons_of_mem y hz))]

/-- The ascending insertion sort by a key is sorted by that key. -/
lemma insertionSort_key_sorted {α κ : Type} [LinearOrder κ] (key : α → κ)
    (l : List α) :
    (List.insertionSort (fun x y => decide (key x ≤ key y) = true) l).Pairwise
      (fun x y => key x ≤ key y) := by
  haveI h1 : IsTotal α (fun x y => decide (key x ≤ key y) = true) :=
    ⟨fun a b => by simpa using le_total (key a) (key b)⟩
  haveI h2 : IsTrans α (fun x y => decide (key x ≤ key y) = true) :=
    ⟨fun a b c hab hbc => by
      simp only [decide_eq_true_eq] at hab hbc ⊢
      exact le_trans hab hbc⟩
  exact (List.sorted_insertionSort _ l).imp (fun h => by simpa using h)

/-- C8, amended: for a key (column value) admitting a linear order, sorting
ascending and reversing agrees with sorting descending whenever the keys in
the list are pairwise distinct.  (The counterexample shows it fails on ties:
Python's `sorted` is stable in both directions, so equal-key elements keep
their original order under `reverse=True` but appear reversed after
`reversed(sorted(...))`.) -/
theorem C8_asc_reverse_eq_desc_of_distinct {κ : Type} [LinearOrder κ]
    (key : Entry → κ) :
    ∀ l : List Entry, l.Pairwise (fun a b => key a ≠ key b) →
    (pysorted (fun x y => decide (key x ≤ key y)) false l).reverse
      = pysorted (fun x y => decide (key x ≤ key y)) true l := by
  intro l
  induction l with
  | nil => intro _; rfl
  | cons a l ih =>
    intro hp
    obtain ⟨h1, h2⟩ := List.pairwise_cons.mp hp
    rw [pysorted_false, pysorted_true, List.insertionSort, List.insertionSort]
    rw [reverse_orderedInsert key a _ (insertionSort_key_sorted key l) ?hz]
    · rw [← pysorted_false, ← pysorted_true, ih h2]
    case hz =>
      intro z hz
      exact Ne.symm (h1 z ((List.perm_insertionSort _ l).subset hz))

/-- Two retained entries with equal `vm_id` keys (both uncorrelated) but
different contents. -/
def e81 : Entry :=
  { pid := 1, username := none, status := "running", cpu_percent := some 0,
    memory_percent := none, time_sum := none, vm_id := "", vm_dir := "",
    vm_name := some "a", vm_load := "" }

/-- A second entry tying with `e81` on every sort column except `pid` and
`vm_name`. -/
def e82 : Entry :=
  { pid := 2, username := none, status := "running", cpu_percent := some 0,
    memory_percent := none, time_sum := none, vm_id := "", vm_dir := "",
    vm_name := some "b", vm_load := "" }

/-- C8, corrected, counterexample: sorting by the `vm_id` column (the
program's own dynamic comparison) over two entries with equal keys —
ascending-then-reversed swaps the tied pair, descending (stable, as Python's
`reverse=True`) keeps it, so the two orders differ. -/
theorem C8_tie_breaks_reverse_equation :
    (pysorted (fun x y => pyLe (colVal Col.vm_id x) (colVal Col.vm_id y)) false
        [e81, e82]).reverse
      ≠ pysorted (fun x y => pyLe (colVal Col.vm_id x) (colVal Col.vm_id y)) true
        [e81, e82] := by
  decide

/-- Witness for C8's amended theorem at the `pid` column (a genuinely
totally ordered, always-distinct key) on two concrete entries. -/
theorem C8_asc_reverse_eq_desc_witness :
    (pysorted (fun x y => decide (x.pid ≤ y.pid)) false [e81, e82]).reverse
      = pysorted (fun x y => decide (x.pid ≤ y.pid)) true [e81, e82] := by
  exact C8_asc_reverse_eq_desc_of_distinct (fun e => e.pid) [e81, e82] (by decide)

/-! ## C7: one record per data row -/

/-- A `filterMap` that never drops keeps the length. -/
lemma filterMap_length_all_some {α β : Type} (f : α → Option β) :
    ∀ l : List α, (∀ a ∈ l, (f a).isSome = true) →
    (l.filterMap f).length = l.length := by
  intro l
  induction l with
  | nil => intro _; rfl
  | cons a l ih =>
    intro h
    obtain ⟨b, hb⟩ := Option.isSome_iff_exists.mp (h a (List.mem_cons_self a l))
    rw [List.filterMap_cons, hb]
    simp [ih (fun u hu => h u (List.mem_cons_of_mem a hu))]

/-- Inserting a fresh key into the machines dict appends it. -/
lemma dictInsert_not_mem (acc : List (String × LineDict)) (k : String)
    (v : LineDict) (h : acc.any (fun kv => kv.1 = k) = false) :
    dictInsert acc k v = acc ++ [(k, v)] := by
  simp [dictInsert, h]

/-- The row loop on rows that all parse, with pairwise-distinct keys also
fresh for the accumulator, appends one dict entry per row in order. -/
lemma parse_rows_all (header : List String) (fs : String → Option String) :
    ∀ (rows : List String) (acc : List (String × LineDict)),
    (∀ r ∈ rows, (parse_row header fs r).isSome = true) →
    (rows.filterMap (fun r => (parse_row header fs r).map Prod.fst)).Nodup →
    (∀ r ∈ rows, ∀ kv, parse_row header fs r = some kv →
      acc.any (fun x => x.1 = kv.1) = false) →
    parse_rows header fs rows acc
      = some (acc ++ rows.filterMap (parse_row header fs)) := by
  intro rows
  induction rows with
  | nil => intro acc _ _ _; simp [parse_rows]
  | cons r rs ih =>
    intro acc hsome hnd hdisj
    obtain ⟨kv, hkv⟩ :=
      Option.isSome_iff_exists.mp (hsome r (List.mem_cons_self r rs))
    obtain ⟨k, v⟩ := kv
    simp only [List.filterMap_cons, hkv, Option.map_some] at hnd
    obtain ⟨hknotin, hnd2⟩ := List.nodup_cons.mp hnd
    simp only [parse_rows, hkv]
    rw [dictInsert_not_mem acc k v
      (hdisj r (List.mem_cons_self r rs) (k, v) hkv)]
    rw [ih (acc ++ [(k, v)])
      (fun u hu => hsome u (List.mem_cons_of_mem r hu)) hnd2 ?hdisj2]
    · simp [List.filterMap_cons, hkv]
    case hdisj2 =>
      intro r2 hr2 kv2 hkv2
      have hmem : kv2.1 ∈ rs.filterMap
          (fun u => (parse_row header fs u).map Prod.fst) :=
        List.mem_filterMap.mpr ⟨r2, hr2, by rw [hkv2]; rfl⟩
      have hne : k ≠ kv2.1 := fun he => hknotin (he ▸ hmem)
      simp [List.any_append, hdisj r2 (List.mem_cons_of_mem r hr2) kv2 hkv2, hne]

/-- C7, amended: for a listing whose data rows each parse (enough columns,
the required header names, both sentinel files present) with non-empty and
pairwise-distinct `id` sentinel contents, the parsed machine set has exactly
one record per data row, each keyed by a non-empty provider instance id.
(The counterexample shows the unqualified claim fails: two rows whose `id`
sentinel files hold the same content collapse into one dict slot.) -/
theorem C7_one_record_per_row (out : String) (fs : String → Option String)
    (hparse : ∀ r ∈ data_rows out,
      ∃ kv, parse_row (parse_header out) fs r = some kv ∧ kv.1 ≠ "")
    (hnodup : ((data_rows out).filterMap
        (fun r => (parse_row (parse_header out) fs r).map Prod.fst)).Nodup) :
    ∃ m, get_vagrant_machines out fs = some m ∧
      m.length = (data_rows out).length ∧ ∀ kv ∈ m, kv.1 ≠ "" := by
  have hsome : ∀ r ∈ data_rows out,
      (parse_row (parse_header out) fs r).isSome = true := by
    intro r hr
    obtain ⟨kv, h1, _⟩ := hparse r hr
    simp [h1]
  have h := parse_rows_all (parse_header out) fs (data_rows out) [] hsome hnodup
    (fun r _ kv _ => rfl)
  refine ⟨(data_rows out).filterMap (parse_row (parse_header out) fs), ?_, ?_, ?_⟩
  · simpa [get_vagrant_machines] using h
  · exact filterMap_length_all_some _ _ hsome
  · intro kv hkv
    obtain ⟨r, hr, hpr⟩ := List.mem_filterMap.mp hkv
    obtain ⟨kv2, h1, h2⟩ := hparse r hr
    rw [h1] at hpr
    cases hpr
    exact h2

/-- A two-row listing whose rows are distinct VMs. -/
def out7 : String :=
  "name directory provider\n---------\nvm1 /h/a virtualbox\nvm2 /h/b virtualbox\n\n"

/-- Sentinel files for `out7` in which both `id` files hold `abc`. -/
def fs7 : String → Option String := fun p =>
  if p = "/h/a/.vagrant/machines/vm1/virtualbox/index_uuid" then some "u1"
  else if p = "/h/a/.vagrant/machines/vm1/virtualbox/id" then some "abc"
  else if p = "/h/b/.vagrant/machines/vm2/virtualbox/index_uuid" then some "u2"
  else if p = "/h/b/.vagrant/machines/vm2/virtualbox/id" then some "abc"
  else none

/-- C7, corrected, counterexample: a valid two-data-row listing parses to a
single record, because both rows' `id` sentinel files hold the same content
and `machines[provider_id] = line_dict` overwrites the first dict slot. -/
theorem C7_duplicate_ids_collapse :
    (data_rows out7).length = 2 ∧
    (get_vagrant_machines out7 fs7).map List.length = some 1 := by
  exact ⟨by decide, by decide⟩

/-- A one-row listing with distinct sentinel files. -/
def out8 : String := "name directory provider\n---\nvm1 /h/a virtualbox\n\n"

/-- Sentinel files for `out8`. -/
def fs8 : String → Option String := fun p =>
  if p = "/h/a/.vagrant/machines/vm1/virtualbox/index_uuid" then some "u1"
  else if p = "/h/a/.vagrant/machines/vm1/virtualbox/id" then some "abc"
  else none

/-- Witness for C7's amended theorem on the concrete one-row listing. -/
theorem C7_one_record_per_row_witness :
    ∃ m, get_vagrant_machines out8 fs8 = some m ∧
      m.length = (data_rows out8).length ∧ ∀ kv ∈ m, kv.1 ≠ "" := by
  apply C7_one_record_per_row
  · intro r hr
    have hrows : data_rows out8 = ["vm1 /h/a virtualbox"] := by decide
    rw [hrows] at hr
    have hr1 : r = "vm1 /h/a virtualbox" := by simpa using hr
    subst hr1
    refine ⟨("abc",
      { fields := [("name", "vm1"), ("directory", "/h/a"), ("provider", "virtualbox")],
        dir_name := "a", index_uuid := "u1" }), rfl, by decide⟩
  · decide
